import Mathlib

/-!
Verification of the `dohproxy` DNS-over-HTTPS filtering proxy.

Shallow embedding of the three source files:
* `dohproxy/utils.py`        — base64url codec, DNS-over-TCP framing, ECS injection;
* `dohproxy/dnsblockcheck.py` — per-user blocklist policy server;
* `dohproxy/httpproxy.py`    — the DOH request handler (`doh1handler`, `resolve`,
  `on_answer`).

Python byte strings are `List Nat` (each element < 256 where it matters),
Python `str` values are `String` or `List Char`, and code that can raise an
exception returns `Except`.  External library calls (CPython `base64`,
`dns.message.from_wire`, sockets) are modelled at the boundary of their
documented behaviour, as noted on each definition.
-/

namespace Dohproxy

/-! ### Base64url codec (`utils.doh_b64_encode` / `utils.doh_b64_decode`)

`base64.urlsafe_b64encode` / `urlsafe_b64decode` are CPython standard library
functions; they are modelled here by the RFC 4648 url-safe alphabet acting on
3-byte groups, with `'='` padding accepted only in the final 4-character
group (the only shape the repository ever produces or decodes). -/

/-- The url-safe base64 alphabet: index `n < 64` to character. -/
def b64Char (n : Nat) : Char :=
  if n < 26 then Char.ofNat (65 + n)
  else if n < 52 then Char.ofNat (97 + (n - 26))
  else if n < 62 then Char.ofNat (48 + (n - 52))
  else if n = 62 then '-'
  else '_'

/-- Inverse of the url-safe base64 alphabet; `none` on a character outside it. -/
def b64Val (c : Char) : Option Nat :=
  if 65 ≤ c.toNat ∧ c.toNat ≤ 90 then some (c.toNat - 65)
  else if 97 ≤ c.toNat ∧ c.toNat ≤ 122 then some (26 + (c.toNat - 97))
  else if 48 ≤ c.toNat ∧ c.toNat ≤ 57 then some (52 + (c.toNat - 48))
  else if c = '-' then some 62
  else if c = '_' then some 63
  else none

/-- `base64.urlsafe_b64encode`: 3-byte groups to 4 characters, `'='`-padded. -/
def b64EncodePadded : List Nat → List Char
  | [] => []
  | [a] => [b64Char (a / 4), b64Char (a % 4 * 16), '=', '=']
  | [a, b] => [b64Char (a / 4), b64Char (a % 4 * 16 + b / 16), b64Char (b % 16 * 4), '=']
  | a :: b :: c :: rest =>
    b64Char (a / 4) :: b64Char (a % 4 * 16 + b / 16) :: b64Char (b % 16 * 4 + c / 64) ::
      b64Char (c % 64) :: b64EncodePadded rest

/-- How CPython's `base64.urlsafe_b64decode` fails on a `str` argument:
`_bytes_from_decode_data` raises plain `ValueError` on a non-ASCII character
(before any base64 processing), while invalid base64 raises
`binascii.Error` (a distinct subclass; `except binascii.Error` does not
catch the former). -/
inductive B64Err where
  | valueError
  | binasciiError
deriving DecidableEq

/-- `base64.urlsafe_b64decode` on an ASCII `'='`-padded string: a
`binascii.Error` unless the length is a multiple of 4, every character is in
the alphabet, and padding appears only at the end of the final group. -/
def b64DecodePadded : List Char → Except B64Err (List Nat)
  | [] => .ok []
  | w :: x :: y :: z :: rest =>
    match b64Val w, b64Val x with
    | some vw, some vx =>
      if y = '=' ∧ z = '=' ∧ rest = [] then
        .ok [vw * 4 + vx / 16]
      else
        match b64Val y with
        | some vy =>
          if z = '=' ∧ rest = [] then
            .ok [vw * 4 + vx / 16, vx % 16 * 16 + vy / 4]
          else
            match b64Val z with
            | some vz =>
              match b64DecodePadded rest with
              | .ok tail => .ok ((vw * 4 + vx / 16) :: (vx % 16 * 16 + vy / 4) ::
                  (vy % 4 * 64 + vz) :: tail)
              | .error e => .error e
            | none => .error B64Err.binasciiError
        | none => .error B64Err.binasciiError
    | _, _ => .error B64Err.binasciiError
  | _ => .error B64Err.binasciiError

/-- Python `str.rstrip("=")`: remove all trailing `'='` characters. -/
def rstripEq (s : List Char) : List Char :=
  (s.reverse.dropWhile (fun c => c == '=')).reverse

/-- `utils.doh_b64_encode`: url-safe base64 encode, then strip the padding. -/
def doh_b64_encode (s : List Nat) : List Char :=
  rstripEq (b64EncodePadded s)

/-- Python `str.encode('ascii')` succeeds: every character below U+0080. -/
def isAsciiStr (s : List Char) : Bool :=
  s.all (fun c => decide (c.toNat < 128))

/-- `utils.doh_b64_decode`: re-pad to the next multiple of 4 (`"=" * (-len(s) % 4)`),
then url-safe base64 decode; a non-ASCII character raises `ValueError` before
any decoding. -/
def doh_b64_decode (s : List Char) : Except B64Err (List Nat) :=
  if isAsciiStr (s ++ List.replicate ((4 - s.length % 4) % 4) '=') then
    b64DecodePadded (s ++ List.replicate ((4 - s.length % 4) % 4) '=')
  else .error B64Err.valueError

lemma b64Val_b64Char : ∀ n, n < 64 → b64Val (b64Char n) = some n := by decide

lemma b64Char_beq_eq : ∀ n, n < 64 → (b64Char n == '=') = false := by decide

lemma b64Char_ascii : ∀ n, n < 64 → (b64Char n).toNat < 128 := by decide

lemma doh_b64_decode_of_ascii (s : List Char) (h : ∀ c ∈ s, c.toNat < 128) :
    doh_b64_decode s =
      b64DecodePadded (s ++ List.replicate ((4 - s.length % 4) % 4) '=') := by
  unfold doh_b64_decode
  rw [if_pos]
  rw [isAsciiStr, List.all_eq_true]
  intro c hc
  rcases List.mem_append.mp hc with h1 | h2
  · exact decide_eq_true (h c h1)
  · have hce : c = '=' := List.eq_of_mem_replicate h2
    subst hce
    decide

lemma b64EncodePadded_ascii : ∀ (q : List Nat), (∀ x ∈ q, x < 256) →
    ∀ c ∈ b64EncodePadded q, c.toNat < 128
  | [], _ => by intro c hc; simp [b64EncodePadded] at hc
  | [a], h => by
    intro c hc
    have ha : a < 256 := h a (by simp)
    simp only [b64EncodePadded, List.mem_cons, List.not_mem_nil, or_false] at hc
    rcases hc with rfl | rfl | rfl | rfl
    · exact b64Char_ascii _ (by omega)
    · exact b64Char_ascii _ (by omega)
    · decide
    · decide
  | [a, b], h => by
    intro c hc
    have ha : a < 256 := h a (by simp)
    have hb : b < 256 := h b (by simp)
    simp only [b64EncodePadded, List.mem_cons, List.not_mem_nil, or_false] at hc
    rcases hc with rfl | rfl | rfl | rfl
    · exact b64Char_ascii _ (by omega)
    · exact b64Char_ascii _ (by omega)
    · exact b64Char_ascii _ (by omega)
    · decide
  | a :: b :: c :: rest, h => by
    intro x hx
    have ha : a < 256 := h a (by simp)
    have hb : b < 256 := h b (by simp)
    have hc : c < 256 := h c (by simp)
    simp only [b64EncodePadded, List.mem_cons] at hx
    rcases hx with rfl | rfl | rfl | rfl | hx
    · exact b64Char_ascii _ (by omega)
    · exact b64Char_ascii _ (by omega)
    · exact b64Char_ascii _ (by omega)
    · exact b64Char_ascii _ (by omega)
    · exact b64EncodePadded_ascii rest (fun y hy => h y (by simp [hy])) x hx

lemma doh_b64_encode_ascii (q : List Nat) (h : ∀ x ∈ q, x < 256) :
    ∀ c ∈ doh_b64_encode q, c.toNat < 128 := by
  intro c hc
  apply b64EncodePadded_ascii q h c
  unfold doh_b64_encode rstripEq at hc
  rw [List.mem_reverse] at hc
  have hmem := (List.dropWhile_sublist (fun c => c == '=')).subset hc
  rw [List.mem_reverse] at hmem
  exact hmem

lemma dropWhile_append_fix (p : Char → Bool) (A B : List Char)
    (hB : List.dropWhile p B = B) :
    List.dropWhile p (A ++ B) = List.dropWhile p A ++ B := by
  induction A with
  | nil => simpa using hB
  | cons a A ih =>
    by_cases h : p a
    · simp [List.dropWhile_cons, h, ih]
    · simp [List.dropWhile_cons, h]

lemma dropWhile_eq_self_of_not (p : Char → Bool) (L : List Char)
    (h : ∀ c ∈ L, p c = false) : List.dropWhile p L = L := by
  cases L with
  | nil => rfl
  | cons c t => simp [List.dropWhile_cons, h c (by simp)]

lemma rstripEq_append (xs ys : List Char) (h : ∀ c ∈ xs, (c == '=') = false) :
    rstripEq (xs ++ ys) = xs ++ rstripEq ys := by
  unfold rstripEq
  rw [List.reverse_append,
    dropWhile_append_fix _ ys.reverse xs.reverse
      (dropWhile_eq_self_of_not _ _ (by intro c hc; exact h c (by simpa using hc)))]
  simp

/-- One 3-byte group of the padded encoder never contains `'='`. -/
lemma mem_chunk_ne_eq {a b c : Nat} (ha : a < 256) (hb : b < 256) (hc : c < 256) :
    ∀ x ∈ [b64Char (a / 4), b64Char (a % 4 * 16 + b / 16),
      b64Char (b % 16 * 4 + c / 64), b64Char (c % 64)], (x == '=') = false := by
  intro x hx
  simp only [List.mem_cons, List.not_mem_nil, or_false] at hx
  rcases hx with rfl | rfl | rfl | rfl
  · exact b64Char_beq_eq _ (by omega)
  · exact b64Char_beq_eq _ (by omega)
  · exact b64Char_beq_eq _ (by omega)
  · exact b64Char_beq_eq _ (by omega)

/-- Claim C5 helper: the encode/decode round-trip, by structural recursion on
3-byte groups. -/
theorem doh_b64_roundtrip : ∀ (q : List Nat), (∀ x ∈ q, x < 256) →
    doh_b64_decode (doh_b64_encode q) = Except.ok q
  | [], _ => rfl
  | [a], h => by
    have ha : a < 256 := h a (by simp)
    have h1 : a / 4 < 64 := by omega
    have h2 : a % 4 * 16 < 64 := by omega
    have henc : doh_b64_encode [a] = [b64Char (a / 4), b64Char (a % 4 * 16)] := by
      show rstripEq ([b64Char (a / 4), b64Char (a % 4 * 16)] ++ ['=', '=']) = _
      rw [rstripEq_append _ _ (by
        intro x hx
        simp only [List.mem_cons, List.not_mem_nil, or_false] at hx
        rcases hx with rfl | rfl
        · exact b64Char_beq_eq _ h1
        · exact b64Char_beq_eq _ h2)]
      rfl
    rw [henc, doh_b64_decode_of_ascii _ (by
      intro x hx
      simp only [List.mem_cons, List.not_mem_nil, or_false] at hx
      rcases hx with rfl | rfl
      · exact b64Char_ascii _ h1
      · exact b64Char_ascii _ h2)]
    show b64DecodePadded [b64Char (a / 4), b64Char (a % 4 * 16), '=', '='] = Except.ok [a]
    simp only [b64DecodePadded, b64Val_b64Char _ h1, b64Val_b64Char _ h2]
    simp
    omega
  | [a, b], h => by
    have ha : a < 256 := h a (by simp)
    have hb : b < 256 := h b (by simp)
    have h1 : a / 4 < 64 := by omega
    have h2 : a % 4 * 16 + b / 16 < 64 := by omega
    have h3 : b % 16 * 4 < 64 := by omega
    have henc : doh_b64_encode [a, b] =
        [b64Char (a / 4), b64Char (a % 4 * 16 + b / 16), b64Char (b % 16 * 4)] := by
      show rstripEq ([b64Char (a / 4), b64Char (a % 4 * 16 + b / 16),
        b64Char (b % 16 * 4)] ++ ['=']) = _
      rw [rstripEq_append _ _ (by
        intro x hx
        simp only [List.mem_cons, List.not_mem_nil, or_false] at hx
        rcases hx with rfl | rfl | rfl
        · exact b64Char_beq_eq _ h1
        · exact b64Char_beq_eq _ h2
        · exact b64Char_beq_eq _ h3)]
      rfl
    rw [henc, doh_b64_decode_of_ascii _ (by
      intro x hx
      simp only [List.mem_cons, List.not_mem_nil, or_false] at hx
      rcases hx with rfl | rfl | rfl
      · exact b64Char_ascii _ h1
      · exact b64Char_ascii _ h2
      · exact b64Char_ascii _ h3)]
    show b64DecodePadded [b64Char (a / 4), b64Char (a % 4 * 16 + b / 16),
      b64Char (b % 16 * 4), '='] = Except.ok [a, b]
    simp only [b64DecodePadded, b64Val_b64Char _ h1, b64Val_b64Char _ h2,
      b64Val_b64Char _ h3]
    have e3 : (b64Char (b % 16 * 4) = '=') = False := by
      simpa using ne_of_beq_false (b64Char_beq_eq _ h3)
    simp [e3]
    omega
  | a :: b :: c :: rest, h => by
    have ha : a < 256 := h a (by simp)
    have hb : b < 256 := h b (by simp)
    have hc : c < 256 := h c (by simp)
    have ih := doh_b64_roundtrip rest (fun x hx => h x (by simp [hx]))
    have h1 : a / 4 < 64 := by omega
    have h2 : a % 4 * 16 + b / 16 < 64 := by omega
    have h3 : b % 16 * 4 + c / 64 < 64 := by omega
    have h4 : c % 64 < 64 := by omega
    have henc : doh_b64_encode (a :: b :: c :: rest) =
        [b64Char (a / 4), b64Char (a % 4 * 16 + b / 16), b64Char (b % 16 * 4 + c / 64),
          b64Char (c % 64)] ++ doh_b64_encode rest := by
      show rstripEq ([b64Char (a / 4), b64Char (a % 4 * 16 + b / 16),
        b64Char (b % 16 * 4 + c / 64), b64Char (c % 64)] ++ b64EncodePadded rest) = _
      rw [rstripEq_append _ _ (mem_chunk_ne_eq ha hb hc)]
      rfl
    have hrestb : ∀ x ∈ rest, x < 256 := fun x hx => h x (by simp [hx])
    rw [henc, doh_b64_decode_of_ascii _ (by
      intro x hx
      rcases List.mem_append.mp hx with h1 | h2
      · simp only [List.mem_cons, List.not_mem_nil, or_false] at h1
        rcases h1 with rfl | rfl | rfl | rfl
        · exact b64Char_ascii _ h1
        · exact b64Char_ascii _ h2
        · exact b64Char_ascii _ h3
        · exact b64Char_ascii _ h4
      · exact doh_b64_encode_ascii rest hrestb x h2)]
    rw [List.length_append]
    have hlen : (4 - ([b64Char (a / 4), b64Char (a % 4 * 16 + b / 16),
        b64Char (b % 16 * 4 + c / 64), b64Char (c % 64)].length +
        (doh_b64_encode rest).length) % 4) % 4 =
        (4 - (doh_b64_encode rest).length % 4) % 4 := by
      simp only [List.length_cons, List.length_nil]
      omega
    rw [hlen, List.append_assoc]
    have ih' : b64DecodePadded (doh_b64_encode rest ++
        List.replicate ((4 - (doh_b64_encode rest).length % 4) % 4) '=') =
        Except.ok rest := by
      rw [← doh_b64_decode_of_ascii _ (doh_b64_encode_ascii rest hrestb)]
      exact ih
    show b64DecodePadded (b64Char (a / 4) :: b64Char (a % 4 * 16 + b / 16) ::
      b64Char (b % 16 * 4 + c / 64) :: b64Char (c % 64) :: (doh_b64_encode rest ++
        List.replicate ((4 - (doh_b64_encode rest).length % 4) % 4) '=')) = _
    simp only [b64DecodePadded, b64Val_b64Char _ h1, b64Val_b64Char _ h2,
      b64Val_b64Char _ h3, b64Val_b64Char _ h4, ih']
    have e3 : (b64Char (b % 16 * 4 + c / 64) = '=') = False := by
      simpa using ne_of_beq_false (b64Char_beq_eq _ h3)
    have e4 : (b64Char (c % 64) = '=') = False := by
      simpa using ne_of_beq_false (b64Char_beq_eq _ h4)
    simp [e3, e4]
    omega

/-- **C5.** For every byte string `q`, `doh_b64_decode (doh_b64_encode q) = q`:
`doh_b64_encode` produces url-safe base64 with the `'='` padding removed, and
`doh_b64_decode` re-pads its input to the next multiple of 4 before standard
url-safe decoding, so the round-trip is the identity on arbitrary bytes. -/
theorem doh_b64_decode_encode (q : List Nat) (h : ∀ x ∈ q, x < 256) :
    doh_b64_decode (doh_b64_encode q) = Except.ok q :=
  doh_b64_roundtrip q h

/-- Witness for C5 at a concrete byte string whose length exercises padding. -/
theorem doh_b64_decode_encode_witness :
    doh_b64_decode (doh_b64_encode [0, 77, 255, 1, 128]) = Except.ok [0, 77, 255, 1, 128] :=
  doh_b64_decode_encode [0, 77, 255, 1, 128] (by decide)

/-! ### DNS-over-TCP framing (`utils.handle_dns_tcp_data`)

`struct.unpack("!H", data[0:2])` is the big-endian 16-bit length of the next
message.  The Python callback receives `dns.message.from_wire(data[2:msglen+2])`;
`from_wire` is an external deterministic decoder, so the framer is modelled as
delivering the raw wire slice itself: equal slices decode to equal messages. -/

/-- `struct.unpack("!H", bytes([a, b]))[0]`. -/
def be16 (a b : Nat) : Nat := a * 256 + b

/-- `utils.handle_dns_tcp_data`: while a complete 2-byte-length-prefixed message
is available, deliver its payload and advance; return the unconsumed tail.
The first component collects the payload slices handed to the callback, in
order. -/
def handle_dns_tcp_data : List Nat → List (List Nat) × List Nat
  | [] => ([], [])
  | [a] => ([], [a])
  | a :: b :: rest =>
    if be16 a b ≤ rest.length then
      ((rest.take (be16 a b)) :: (handle_dns_tcp_data (rest.drop (be16 a b))).1,
        (handle_dns_tcp_data (rest.drop (be16 a b))).2)
    else ([], a :: b :: rest)
  termination_by data => data.length
  decreasing_by all_goals (simp; omega)

lemma handle_eq_nil : handle_dns_tcp_data [] = ([], []) := by
  unfold handle_dns_tcp_data
  rfl

lemma handle_eq_one (a : Nat) : handle_dns_tcp_data [a] = ([], [a]) := by
  unfold handle_dns_tcp_data
  rfl

lemma handle_eq_cons (a b : Nat) (rest : List Nat) :
    handle_dns_tcp_data (a :: b :: rest) =
      if be16 a b ≤ rest.length then
        ((rest.take (be16 a b)) :: (handle_dns_tcp_data (rest.drop (be16 a b))).1,
          (handle_dns_tcp_data (rest.drop (be16 a b))).2)
      else ([], a :: b :: rest) := by
  conv_lhs => unfold handle_dns_tcp_data

/-- One driver step of the byte-at-a-time experiment: append the next byte to
the remainder returned by the previous call and run the framer again,
accumulating delivered messages. -/
def feedStep (st : List (List Nat) × List Nat) (b : Nat) : List (List Nat) × List Nat :=
  (st.1 ++ (handle_dns_tcp_data (st.2 ++ [b])).1, (handle_dns_tcp_data (st.2 ++ [b])).2)

/-- Drive `handle_dns_tcp_data` one byte at a time over `bytes`, starting from
state `st` (delivered messages so far, pending remainder). -/
def feedBytes (st : List (List Nat) × List Nat) (bytes : List Nat) :
    List (List Nat) × List Nat :=
  bytes.foldl feedStep st

/-- A complete length-prefixed frame: two big-endian length bytes followed by
exactly that many payload bytes. -/
def isFrameB : List Nat → Bool
  | a :: b :: body => a < 256 && b < 256 && body.length == be16 a b
  | _ => false

/-- A buffer holding no complete frame: too short for a header, or shorter
than its announced length. -/
def isPartialB : List Nat → Bool
  | [] => true
  | [_] => true
  | a :: b :: rest => decide (rest.length < be16 a b)

lemma handle_partial_eq (t : List Nat) (ht : isPartialB t = true) :
    handle_dns_tcp_data t = ([], t) := by
  match t with
  | [] => exact handle_eq_nil
  | [a] => exact handle_eq_one a
  | a :: b :: rest =>
    have : rest.length < be16 a b := by simpa [isPartialB] using ht
    rw [handle_eq_cons, if_neg (by omega)]

lemma handle_frame_append (f u : List Nat) (hf : isFrameB f = true) :
    handle_dns_tcp_data (f ++ u) =
      ((f.drop 2) :: (handle_dns_tcp_data u).1, (handle_dns_tcp_data u).2) := by
  match f with
  | a :: b :: body =>
    have hlen : body.length = be16 a b := by
      simp only [isFrameB, Bool.and_eq_true, beq_iff_eq] at hf
      exact hf.2
    show handle_dns_tcp_data (a :: b :: (body ++ u)) = _
    rw [handle_eq_cons, if_pos (by rw [List.length_append]; omega),
      List.take_left' hlen, List.drop_left' hlen]
    rfl
  | [] => simp [isFrameB] at hf
  | [a] => simp [isFrameB] at hf

lemma isPartialB_take (t : List Nat) (ht : isPartialB t = true) (k : Nat) :
    isPartialB (t.take k) = true := by
  match t, k with
  | [], k => simp [isPartialB]
  | [a], 0 => rfl
  | [a], k + 1 => simp [isPartialB]
  | a :: b :: rest, 0 => rfl
  | a :: b :: rest, 1 => rfl
  | a :: b :: rest, k + 2 =>
    have : rest.length < be16 a b := by simpa [isPartialB] using ht
    simp only [List.take, isPartialB, decide_eq_true_eq, List.length_take]
    omega

lemma isPartialB_frame_take (f : List Nat) (hf : isFrameB f = true) (k : Nat)
    (hk : k < f.length) : isPartialB (f.take k) = true := by
  match f, k with
  | a :: b :: body, 0 => rfl
  | a :: b :: body, 1 => rfl
  | a :: b :: body, k + 2 =>
    have hlen : body.length = be16 a b := by
      simp only [isFrameB, Bool.and_eq_true, beq_iff_eq] at hf
      exact hf.2
    have hk' : k < body.length := by simpa using hk
    simp only [List.take, isPartialB, decide_eq_true_eq, List.length_take]
    omega
  | [], k => simp [isFrameB] at hf
  | [a], k => simp [isFrameB] at hf

lemma feedBytes_partial_take (t : List Nat) (ht : isPartialB t = true)
    (acc : List (List Nat)) :
    ∀ k, k ≤ t.length → feedBytes (acc, []) (t.take k) = (acc, t.take k) := by
  intro k
  induction k with
  | zero => intro _; rfl
  | succ k ih =>
    intro hk
    have hkk : k < t.length := by omega
    have ihh := ih (by omega)
    have hget : t[k]? = some t[k] := List.getElem?_eq_getElem hkk
    rw [List.take_succ, hget]
    simp only [Option.toList_some]
    rw [feedBytes, List.foldl_append]
    rw [feedBytes] at ihh
    rw [ihh]
    simp only [List.foldl_cons, List.foldl_nil]
    unfold feedStep
    have htk : List.take k t ++ [t[k]] = List.take (k + 1) t := by
      rw [List.take_succ, hget]
      simp
    rw [htk, handle_partial_eq _ (isPartialB_take t ht (k + 1))]
    simp

lemma feedBytes_frame (f : List Nat) (hf : isFrameB f = true)
    (acc : List (List Nat)) :
    feedBytes (acc, []) f = (acc ++ [f.drop 2], []) := by
  have hf2 : 2 ≤ f.length := by
    match f with
    | a :: b :: body => simp
    | [] => simp [isFrameB] at hf
    | [a] => simp [isFrameB] at hf
  have main : ∀ k, k ≤ f.length →
      feedBytes (acc, []) (f.take k) =
        (if k = f.length then (acc ++ [f.drop 2], []) else (acc, f.take k)) := by
    intro k
    induction k with
    | zero =>
      intro _
      rw [if_neg (by omega)]
      rfl
    | succ k ih =>
      intro hk
      have hkk : k < f.length := by omega
      have ihh := ih (by omega)
      rw [if_neg (by omega)] at ihh
      have hget : f[k]? = some f[k] := List.getElem?_eq_getElem hkk
      rw [List.take_succ, hget]
      simp only [Option.toList_some]
      rw [feedBytes, List.foldl_append]
      rw [feedBytes] at ihh
      rw [ihh]
      simp only [List.foldl_cons, List.foldl_nil]
      unfold feedStep
      have htk : List.take k f ++ [f[k]] = List.take (k + 1) f := by
        rw [List.take_succ, hget]
        simp
      rw [htk]
      by_cases hend : k + 1 = f.length
      · rw [if_pos hend, hend, List.take_length]
        have happ := handle_frame_append f [] hf
        rw [List.append_nil, handle_eq_nil] at happ
        rw [happ]
      · rw [if_neg hend,
          handle_partial_eq _ (isPartialB_frame_take f hf (k + 1) (by omega))]
        simp
  have := main f.length (by omega)
  simpa using this

lemma feedBytes_append (st : List (List Nat) × List Nat) (xs ys : List Nat) :
    feedBytes st (xs ++ ys) = feedBytes (feedBytes st xs) ys := by
  simp [feedBytes, List.foldl_append]

lemma feedBytes_frames (frames : List (List Nat))
    (hf : ∀ f ∈ frames, isFrameB f = true) (acc : List (List Nat)) :
    feedBytes (acc, []) frames.flatten =
      (acc ++ frames.map (fun f => f.drop 2), []) := by
  induction frames generalizing acc with
  | nil => simp [feedBytes]
  | cons f fs ih =>
    rw [List.flatten_cons, feedBytes_append, feedBytes_frame f (hf f (by simp)) acc]
    rw [ih (fun g hg => hf g (by simp [hg]))]
    simp

lemma handle_frames (frames : List (List Nat)) (t : List Nat)
    (hf : ∀ f ∈ frames, isFrameB f = true) (ht : isPartialB t = true) :
    handle_dns_tcp_data (frames.flatten ++ t) =
      (frames.map (fun f => f.drop 2), t) := by
  induction frames with
  | nil => simpa using handle_partial_eq t ht
  | cons f fs ih =>
    rw [List.flatten_cons, List.append_assoc, handle_frame_append f _ (hf f (by simp)),
      ih (fun g hg => hf g (by simp [hg]))]
    simp

/-- **C6.** For every sequence of well-formed 2-byte-big-endian
length-prefixed DNS messages (followed by an arbitrary partial tail), driving
`handle_dns_tcp_data` one byte at a time — each call receiving the previous
call's returned remainder with the next byte appended — delivers to the
callback exactly the same sequence of message payloads as a single call on the
whole concatenation, and in both cases the final returned remainder is the
unconsumed tail. -/
theorem handle_dns_tcp_data_incremental (frames : List (List Nat)) (t : List Nat)
    (hf : ∀ f ∈ frames, isFrameB f = true) (ht : isPartialB t = true) :
    feedBytes ([], []) (frames.flatten ++ t) =
        (frames.map (fun f => f.drop 2), t) ∧
      handle_dns_tcp_data (frames.flatten ++ t) =
        (frames.map (fun f => f.drop 2), t) := by
  constructor
  · rw [feedBytes_append, feedBytes_frames frames hf []]
    have := feedBytes_partial_take t ht (frames.map (fun f => f.drop 2)) t.length
      (by omega)
    simpa using this
  · exact handle_frames frames t hf ht

/-- Witness for C6: two frames (one of them empty) and a partial tail. -/
theorem handle_dns_tcp_data_incremental_witness :
    feedBytes ([], []) ([[0, 1, 42], [0, 0], [0, 2, 7, 8]].flatten ++ [0, 5, 9]) =
        ([[42], [], [7, 8]], [0, 5, 9]) ∧
      handle_dns_tcp_data ([[0, 1, 42], [0, 0], [0, 2, 7, 8]].flatten ++ [0, 5, 9]) =
        ([[42], [], [7, 8]], [0, 5, 9]) :=
  handle_dns_tcp_data_incremental [[0, 1, 42], [0, 0], [0, 2, 7, 8]] [0, 5, 9]
    (by decide) (by decide)

/-! ### DNS messages and ECS injection (`utils.set_dns_ecs`)

Only the fields of `dns.message.Message` that the repository's handlers
observe are tracked: id, question section, answer section, EDNS options,
EDNS level and EDNS flags.  `ipaddress` host addresses are the numeric value
of the address; `ip_network(ip).supernet(new_prefix=n).network_address` is the
value with the low `32 - n` (or `128 - n`) bits cleared. -/

/-- A question-section entry (`dnsq.question[i]`); `name` keeps the trailing
dot of dnspython's text form. -/
structure Question where
  name : String
deriving DecidableEq

/-- An answer-section RRset (`dns.rrset.from_text(name, ttl, rdclass, rdtype,
rdata)`); one TTL per RRset, as read by `on_answer`. -/
structure Rrset where
  name : String
  ttl : Nat
  rdclass : String
  rdtype : String
  rdata : String
deriving DecidableEq

/-- An IPv4 or IPv6 address as its numeric value. -/
inductive IpAddr where
  | v4 (a : Nat)
  | v6 (a : Nat)
deriving DecidableEq

/-- An EDNS option: `dns.edns.ECSOption(address, srclen)` or any other option. -/
inductive EdnsOption where
  | ecs (address : IpAddr) (srclen : Nat)
  | other (code : Nat) (data : List Nat)
deriving DecidableEq

/-- The observable part of `dns.message.Message`.  `edns = -1` means EDNS is
disabled (dnspython's convention). -/
structure DnsMessage where
  id : Nat
  question : List Question
  answer : List Rrset
  options : List EdnsOption
  edns : Int
  ednsflags : Nat
deriving DecidableEq

/-- `isinstance(option, dns.edns.ECSOption)`. -/
def isEcs : EdnsOption → Bool
  | .ecs _ _ => true
  | .other _ _ => false

/-- `56 if ip.version == 6 else 24`. -/
def ecsSrclen : IpAddr → Nat
  | .v4 _ => 24
  | .v6 _ => 56

/-- `ipaddress.ip_network(ip).supernet(new_prefix=bits).network_address`:
clear the host bits below the /24 (IPv4) or /56 (IPv6) boundary. -/
def maskIp : IpAddr → IpAddr
  | .v4 a => .v4 (a / 2 ^ 8 * 2 ^ 8)
  | .v6 a => .v6 (a / 2 ^ 72 * 2 ^ 72)

/-- `utils.set_dns_ecs`: scan the existing EDNS options; if an ECS option is
present return `False` leaving the message unchanged, else append an ECS
option for the masked client network and re-enable EDNS
(`dnsq.use_edns(edns=0, ednsflags=dnsq.ednsflags, options=options)`).
Returns the (possibly updated) message and the Python return value. -/
def set_dns_ecs (dnsq : DnsMessage) (ip : IpAddr) : DnsMessage × Bool :=
  if dnsq.options.any isEcs then (dnsq, false)
  else
    ({ dnsq with
        options := dnsq.options ++ [EdnsOption.ecs (maskIp ip) (ecsSrclen ip)],
        edns := 0 },
      true)

/-- **C7.** `set_dns_ecs` is idempotent and never overwrites an existing ECS
option: on a message already carrying an ECS option it leaves the message
unchanged and returns `False`; a second call after a successful first call is
a no-op; and after any successful call the message carries exactly one ECS
option. -/
theorem set_dns_ecs_idempotent (msg : DnsMessage) (ip : IpAddr) :
    (msg.options.any isEcs = true → set_dns_ecs msg ip = (msg, false)) ∧
      ((set_dns_ecs msg ip).2 = true →
        ∀ ip2, set_dns_ecs (set_dns_ecs msg ip).1 ip2 = ((set_dns_ecs msg ip).1, false)) ∧
      ((set_dns_ecs msg ip).2 = true →
        ((set_dns_ecs msg ip).1.options.filter isEcs).length = 1) := by
  refine ⟨fun h => by simp [set_dns_ecs, h], fun h => ?_, fun h => ?_⟩
  · have hno : msg.options.any isEcs = false := by
      by_contra hc
      simp only [Bool.not_eq_false] at hc
      simp [set_dns_ecs, hc] at h
    intro ip2
    have hecs : ((set_dns_ecs msg ip).1.options.any isEcs) = true := by
      simp [set_dns_ecs, hno, isEcs]
    simp [set_dns_ecs, hno] at hecs ⊢
    simp [hecs]
  · have hno : msg.options.any isEcs = false := by
      by_contra hc
      simp only [Bool.not_eq_false] at hc
      simp [set_dns_ecs, hc] at h
    have hfilter : msg.options.filter isEcs = [] :=
      List.filter_eq_nil_iff.mpr (fun o ho => by
        have := List.any_eq_false.mp hno o ho
        simp [this])
    simp [set_dns_ecs, hno, List.filter_append, hfilter, isEcs]

/-- Witness for C7 on a message with one non-ECS option. -/
theorem set_dns_ecs_idempotent_witness :
    ((⟨1, [⟨"example.com."⟩], [], [EdnsOption.other 10 []], -1, 0⟩ :
        DnsMessage).options.any isEcs = false) ∧
      (set_dns_ecs ⟨1, [⟨"example.com."⟩], [], [EdnsOption.other 10 []], -1, 0⟩
          (.v4 3325256781)).2 = true ∧
      set_dns_ecs (set_dns_ecs ⟨1, [⟨"example.com."⟩], [], [EdnsOption.other 10 []], -1, 0⟩
          (.v4 3325256781)).1 (.v4 3325256781) =
        ((set_dns_ecs ⟨1, [⟨"example.com."⟩], [], [EdnsOption.other 10 []], -1, 0⟩
          (.v4 3325256781)).1, false) ∧
      ((set_dns_ecs ⟨1, [⟨"example.com."⟩], [], [EdnsOption.other 10 []], -1, 0⟩
          (.v4 3325256781)).1.options.filter isEcs).length = 1 :=
  ⟨by decide, by decide,
    (set_dns_ecs_idempotent ⟨1, [⟨"example.com."⟩], [], [EdnsOption.other 10 []], -1, 0⟩
      (.v4 3325256781)).2.1 (by decide) (.v4 3325256781),
    (set_dns_ecs_idempotent ⟨1, [⟨"example.com."⟩], [], [EdnsOption.other 10 []], -1, 0⟩
      (.v4 3325256781)).2.2 (by decide)⟩

/-- **C8.** On a message with no existing ECS option, `set_dns_ecs` appends an
ECS option whose address is the client's network address masked to the network
boundary (prefix /24 for IPv4, /56 for IPv6), re-enables EDNS (level 0,
flags preserved), and returns `True`; `198.51.100.77` masks to `198.51.100.0`
with srclen 24 and `2001:db8::1` masks to `2001:db8::` with srclen 56. -/
theorem set_dns_ecs_appends (msg : DnsMessage) (ip : IpAddr)
    (h : msg.options.any isEcs = false) :
    set_dns_ecs msg ip =
        ({ msg with
            options := msg.options ++ [EdnsOption.ecs (maskIp ip) (ecsSrclen ip)],
            edns := 0 },
          true) ∧
      maskIp (.v4 3325256781) = .v4 3325256704 ∧
      ecsSrclen (.v4 3325256781) = 24 ∧
      maskIp (.v6 (536939960 * 2 ^ 96 + 1)) = .v6 (536939960 * 2 ^ 96) ∧
      ecsSrclen (.v6 (536939960 * 2 ^ 96 + 1)) = 56 := by
  refine ⟨by simp [set_dns_ecs, h], by decide, rfl, ?_, rfl⟩
  show IpAddr.v6 ((536939960 * 2 ^ 96 + 1) / 2 ^ 72 * 2 ^ 72) = _
  norm_num

/-- Witness for C8: inject ECS for `198.51.100.77` into an EDNS-less query. -/
theorem set_dns_ecs_appends_witness :
    set_dns_ecs ⟨7, [⟨"example.com."⟩], [], [], -1, 0⟩ (.v4 3325256781) =
        ({ (⟨7, [⟨"example.com."⟩], [], [], -1, 0⟩ : DnsMessage) with
            options := [] ++ [EdnsOption.ecs (maskIp (.v4 3325256781))
              (ecsSrclen (.v4 3325256781))],
            edns := 0 },
          true) ∧
      maskIp (.v4 3325256781) = .v4 3325256704 ∧
      ecsSrclen (.v4 3325256781) = 24 ∧
      maskIp (.v6 (536939960 * 2 ^ 96 + 1)) = .v6 (536939960 * 2 ^ 96) ∧
      ecsSrclen (.v6 (536939960 * 2 ^ 96 + 1)) = 56 :=
  set_dns_ecs_appends ⟨7, [⟨"example.com."⟩], [], [], -1, 0⟩ (.v4 3325256781) (by decide)

/-! ### The policy server (`dnsblockcheck.py`)

The payload of a connection is parsed by `json.loads`; a payload is modelled
post-parse as an optional `Json` value (`none` when `json.loads` raises).
`blocklist` is a `CIMultiDict`: keys are matched case-insensitively, values
are plain Python lists of strings.  Python truthiness and `in`/`[]` semantics
on parsed JSON values are reproduced per constructor. -/

/-- A parsed JSON value, restricted to the shapes relevant here. -/
inductive Json where
  | obj (fields : List (String × Json))
  | arr (elems : List Json)
  | str (s : String)

/-- Python `==` between a parsed JSON value and a `str`: only equal strings
compare equal. -/
def jEqStr : Json → String → Bool
  | .str t, s => t == s
  | _, _ => false

/-- Python `key in data`: dict key membership (case-sensitive), list element
equality, or substring test on a string. -/
def jContains (data : Json) (key : String) : Bool :=
  match data with
  | .obj fields => (fields.find? (fun e => e.1 == key)).isSome
  | .arr elems => elems.any (fun j => jEqStr j key)
  | .str s => decide (key.toList <:+: s.toList)

/-- Python `data[key]` with a string key: dict lookup (`KeyError` when
missing), `TypeError` on a list or string. -/
def jGetItem (data : Json) (key : String) : Except Unit Json :=
  match data with
  | .obj fields =>
    match fields.find? (fun e => e.1 == key) with
    | some e => .ok e.2
    | none => .error ()
  | .arr _ => .error ()
  | .str _ => .error ()

/-- Python `str.lower()` as used by `CIMultiDict` key comparison, computed on
the character list so that it evaluates by kernel reduction. -/
def lcase (s : String) : List Char := s.data.map Char.toLower

/-- The in-memory blocklist: one `(user, domains)` entry per user. -/
abbrev Store := List (String × List String)

/-- `CIMultiDict` lookup (`getone`): first entry whose key matches
case-insensitively. -/
def storeFindCI (st : Store) (k : String) : Option (List String) :=
  (st.find? (fun e => lcase e.1 == lcase k)).map (fun e => e.2)

/-- `socketserver.is_blocked`: `True` on a blocked pair, `False` when the
fields are missing or the user is unknown, Python `None` (modelled as
`Option.none`) when the user is known but the domain does not match, and an
exception (`Except.error`) when subscripting or the `CIMultiDict` key raises
`TypeError`.  The log line's `data['domain']`/`data['user']` subscripts run
before the membership tests, so they raise first on non-dict payloads. -/
def is_blocked (store : Store) (data : Json) : Except Unit (Option Bool) :=
  if jContains data "user" && jContains data "domain" then
    match jGetItem data "domain", jGetItem data "user" with
    | .ok d, .ok u =>
      match u with
      | .str ukey =>
        match storeFindCI store ukey with
        | some entry =>
          if entry.any (fun s => jEqStr d s) then .ok (some true) else .ok none
        | none => .ok (some false)
      | _ => .error ()
    | _, _ => .error ()
  else .ok (some false)

/-- What the server does with one received payload. -/
inductive ReplyAction where
  | sent (b : Nat)
  | closed
deriving DecidableEq

/-- One iteration of `socketserver.handle_req` on a non-empty receive:
`json.loads` failure or any exception closes the connection with no reply;
otherwise exactly one byte is sent — `bytes([True])` on a truthy
`is_blocked`, `bytes([False])` otherwise. -/
def handle_req_step (parsed : Option Json) (store : Store) : ReplyAction :=
  match parsed with
  | none => .closed
  | some data =>
    match is_blocked store data with
    | .error _ => .closed
    | .ok r => if r.getD false then .sent 1 else .sent 0

/-- The spec-side blocking predicate for the amended C2: the payload is a JSON
object whose `user` field is a string naming a known user (case-insensitive
key match) and whose `domain` field equals, case-sensitively, one of that
user's stored domains. -/
def blockedSpec (store : Store) (j : Json) : Bool :=
  match j with
  | .obj fields =>
    match (fields.find? (fun e => e.1 == "user")).map (fun e => e.2),
        (fields.find? (fun e => e.1 == "domain")).map (fun e => e.2) with
    | some (Json.str u), some d =>
      match storeFindCI store u with
      | some entry => entry.any (fun s => jEqStr d s)
      | none => false
    | _, _ => false
  | _ => false

/-- Counterexample to C2 as stated: with blocklist `alice → [ads.example.com]`,
the claim asserts the reply to `{"user": "alice", "domain": "ADS.EXAMPLE.COM"}`
is `0x01` (case-insensitive domain match); the code replies `0x00`, because
list membership in Python compares domains case-sensitively. -/
theorem handle_req_step_case_counterexample :
    handle_req_step
        (some (.obj [("user", .str "alice"), ("domain", .str "ADS.EXAMPLE.COM")]))
        [("alice", ["ads.example.com"])] = .sent 0 := by
  rfl

/-- **C2 (amended).** The reply byte is `0x01` iff the payload is a JSON
object whose `user` field is a string naming a known user (case-insensitive)
and whose `domain` field matches a stored domain case-sensitively; a payload
whose fields are present and whose `user` field is a string always gets
exactly one reply byte (`0x01`/`0x00` by that predicate); a payload that
`json.loads` cannot parse closes the connection with no reply. -/
theorem handle_req_step_spec (store : Store) (j : Json) :
    (handle_req_step (some j) store = .sent 1 ↔ blockedSpec store j = true) ∧
      handle_req_step none store = .closed ∧
      (∀ fields u d, j = .obj fields →
        (fields.find? (fun e => e.1 == "user")).map (fun e => e.2) = some (.str u) →
        (fields.find? (fun e => e.1 == "domain")).map (fun e => e.2) = some d →
        handle_req_step (some j) store =
          .sent (if blockedSpec store j then 1 else 0)) := by
  refine ⟨?_, rfl, ?_⟩
  · match j with
    | .obj fields =>
      cases hu : fields.find? (fun e => e.1 == "user") with
      | none =>
        simp [handle_req_step, is_blocked, jContains, hu, blockedSpec]
      | some eu =>
        cases hd : fields.find? (fun e => e.1 == "domain") with
        | none =>
          simp [handle_req_step, is_blocked, jContains, hu, hd, blockedSpec]
        | some ed =>
          match heu : eu.2 with
          | .str u =>
            cases hst : storeFindCI store u with
            | none =>
              simp [handle_req_step, is_blocked, jContains, jGetItem, hu, hd,
                blockedSpec, heu, hst]
            | some entry =>
              by_cases hany : entry.any (fun s => jEqStr ed.2 s)
              all_goals
                simp [handle_req_step, is_blocked, jContains, jGetItem, hu, hd,
                  blockedSpec, heu, hst, hany]
          | .obj g =>
            simp [handle_req_step, is_blocked, jContains, jGetItem, hu, hd,
              blockedSpec, heu]
          | .arr g =>
            simp [handle_req_step, is_blocked, jContains, jGetItem, hu, hd,
              blockedSpec, heu]
    | .arr elems =>
      by_cases hu : elems.any (fun j => jEqStr j "user") <;>
        by_cases hd : elems.any (fun j => jEqStr j "domain") <;>
          simp [handle_req_step, is_blocked, jContains, jGetItem, hu, hd, blockedSpec]
    | .str s =>
      by_cases hu : decide ("user".toList <:+: s.toList) <;>
        by_cases hd : decide ("domain".toList <:+: s.toList) <;>
          simp_all [handle_req_step, is_blocked, jContains, jGetItem, blockedSpec]
  · intro fields u d hj hu hd
    subst hj
    cases hu' : fields.find? (fun e => e.1 == "user") with
    | none => simp [hu'] at hu
    | some eu =>
      cases hd' : fields.find? (fun e => e.1 == "domain") with
      | none => simp [hd'] at hd
      | some ed =>
        have heu : eu.2 = .str u := by
          simp [hu'] at hu
          exact hu
        have hed : ed.2 = d := by
          simp [hd'] at hd
          exact hd
        cases hst : storeFindCI store u with
        | none =>
          simp [handle_req_step, is_blocked, jContains, jGetItem, hu', hd',
            blockedSpec, heu, hed, hst]
        | some entry =>
          by_cases hany : entry.any (fun s => jEqStr d s)
          all_goals
            simp [handle_req_step, is_blocked, jContains, jGetItem, hu', hd',
              blockedSpec, heu, hed, hst, hany]

/-- Witness for C2 on the spec's own examples: `alice`/`ads.example.com` is
blocked (`0x01`), `alice`/`other.com` and unknown `bob` get `0x00`, and an
unparsable payload closes the connection. -/
theorem handle_req_step_spec_witness :
    handle_req_step
        (some (.obj [("user", .str "alice"), ("domain", .str "ads.example.com")]))
        [("alice", ["ads.example.com"])] = .sent 1 ∧
      handle_req_step
        (some (.obj [("user", .str "alice"), ("domain", .str "other.com")]))
        [("alice", ["ads.example.com"])] = .sent 0 ∧
      handle_req_step
        (some (.obj [("user", .str "bob"), ("domain", .str "ads.example.com")]))
        [("alice", ["ads.example.com"])] = .sent 0 ∧
      handle_req_step none [("alice", ["ads.example.com"])] = .closed :=
  ⟨by
    rw [(handle_req_step_spec [("alice", ["ads.example.com"])]
      (.obj [("user", .str "alice"), ("domain", .str "ads.example.com")])).2.2
      [("user", .str "alice"), ("domain", .str "ads.example.com")]
      "alice" (.str "ads.example.com") rfl rfl rfl]
    rfl,
  by
    rw [(handle_req_step_spec [("alice", ["ads.example.com"])]
      (.obj [("user", .str "alice"), ("domain", .str "other.com")])).2.2
      [("user", .str "alice"), ("domain", .str "other.com")]
      "alice" (.str "other.com") rfl rfl rfl]
    rfl,
  by
    rw [(handle_req_step_spec [("alice", ["ads.example.com"])]
      (.obj [("user", .str "bob"), ("domain", .str "ads.example.com")])).2.2
      [("user", .str "bob"), ("domain", .str "ads.example.com")]
      "bob" (.str "ads.example.com") rfl rfl rfl]
    rfl,
  (handle_req_step_spec [("alice", ["ads.example.com"])] (.str "")).2.1⟩

/-! ### Blocklist loading and reload (`read_files` / `read_on_signal`)

A directory walk is modelled as the list of files it yields: path, current
`os.stat(file).st_mtime`, and the stripped lines the `open(file)` read would
produce (read errors, which the code logs and skips, are outside the claims).
`blocklist[user] = lines` on a `CIMultiDict` replaces every entry whose key
matches case-insensitively with the single new entry. -/

/-- `CIMultiDict` lookup (`getone`), generic in the value type. -/
def ciFind {α : Type} (l : List (String × α)) (k : String) : Option α :=
  (l.find? (fun e => lcase e.1 == lcase k)).map (fun e => e.2)

/-- `CIMultiDict.__setitem__`: replace the first case-insensitive match and
drop any further ones; append when the key is new. -/
def ciSet {α : Type} : List (String × α) → String → α → List (String × α)
  | [], k, v => [(k, v)]
  | e :: t, k, v =>
    if lcase e.1 == lcase k then
      (k, v) :: t.filter (fun e2 => !(lcase e2.1 == lcase k))
    else e :: ciSet t k v

/-- One file yielded by `os.walk`: path, current mtime, stripped lines. -/
structure FileEntry where
  path : String
  mtime : Nat
  lines : List String
deriving DecidableEq

/-- The `fileslist` mtime records (the `'path'` root entry the code also
stores there is the walk root, passed separately here). -/
abbrev MtimeList := List (String × Nat)

/-- `fileslist` lookup: `file in fileslist and fileslist[file] = m`. -/
def flistFindCI (fl : MtimeList) (k : String) : Option Nat := ciFind fl k

/-- Python's per-character split: `"a//b".split('/') = ['a', '', 'b']`. -/
def splitOnChar (sep : Char) : List Char → List (List Char)
  | [] => [[]]
  | c :: rest =>
    match splitOnChar sep rest with
    | [] => [[c]]
    | h :: t => if c == sep then [] :: h :: t else (c :: h) :: t

/-- `file.split('/')[-1].split('.')[0]`: the user id derived from a path. -/
def userOf (path : String) : String :=
  ⟨(splitOnChar '.' ((splitOnChar '/' path.data).getLastD [])).headD []⟩

/-- The policy server's whole mutable state: the `blocklist` and `fileslist`
globals. -/
structure ServerState where
  blocklist : Store
  fileslist : MtimeList
deriving DecidableEq

/-- `read_files` (initial load): record each file's mtime and replace its
user's entire entry. -/
def read_files (files : List FileEntry) : ServerState :=
  files.foldl
    (fun st f =>
      { blocklist := ciSet st.blocklist (userOf f.path) f.lines,
        fileslist := ciSet st.fileslist f.path f.mtime })
    ⟨[], []⟩

/-- The loop body of `read_on_signal`: `flist` is the global `fileslist`
(未 updated during the loop); skip a file whose current mtime equals the
recorded one, otherwise replace the user's entry and record the path as read.
Returns the new blocklist and the list of files actually re-read. -/
def reloadGo (flist : MtimeList) : List FileEntry → Store → List String → Store × List String
  | [], bl, rd => (bl, rd)
  | f :: fs, bl, rd =>
    if flistFindCI flist f.path == some f.mtime then reloadGo flist fs bl rd
    else reloadGo flist fs (ciSet bl (userOf f.path) f.lines) (rd ++ [f.path])

/-- `read_on_signal`: re-walk the directory against the recorded mtimes; the
fresh mtime map `newfileslist` is a local and the global `fileslist` is left
untouched.  Returns the new state and the paths that were re-read. -/
def read_on_signal (files : List FileEntry) (st : ServerState) :
    ServerState × List String :=
  ({ blocklist := (reloadGo st.fileslist files st.blocklist []).1,
      fileslist := st.fileslist },
    (reloadGo st.fileslist files st.blocklist []).2)

lemma find?_filter_of_imp {α : Type} (p q : α → Bool) (l : List α)
    (h : ∀ x, p x = true → q x = true) :
    (l.filter q).find? p = l.find? p := by
  induction l with
  | nil => rfl
  | cons x t ih =>
    cases hq : q x with
    | true =>
      cases hp : p x with
      | true => simp [List.filter_cons, hq, List.find?_cons, hp]
      | false => simp [List.filter_cons, hq, List.find?_cons, hp, ih]
    | false =>
      have hp : p x = false := by
        cases hpx : p x
        · rfl
        · rw [h x hpx] at hq
          exact hq
      simp [List.filter_cons, hq, List.find?_cons, hp, ih]

lemma ciFind_cons_pos {α : Type} (e : String × α) (t : List (String × α)) (k : String)
    (h : (lcase e.1 == lcase k) = true) : ciFind (e :: t) k = some e.2 := by
  simp [ciFind, List.find?_cons, h]

lemma ciFind_cons_neg {α : Type} (e : String × α) (t : List (String × α)) (k : String)
    (h : (lcase e.1 == lcase k) = false) : ciFind (e :: t) k = ciFind t k := by
  simp [ciFind, List.find?_cons, h]

lemma ciSet_cons_pos {α : Type} (e : String × α) (t : List (String × α)) (k : String)
    (v : α) (h : (lcase e.1 == lcase k) = true) :
    ciSet (e :: t) k v = (k, v) :: t.filter (fun e2 => !(lcase e2.1 == lcase k)) := by
  simp [ciSet, h]

lemma ciSet_cons_neg {α : Type} (e : String × α) (t : List (String × α)) (k : String)
    (v : α) (h : (lcase e.1 == lcase k) = false) :
    ciSet (e :: t) k v = e :: ciSet t k v := by
  simp [ciSet, h]

lemma ciFind_filter_ne {α : Type} (t : List (String × α)) (k u : String)
    (h : lcase k ≠ lcase u) :
    ciFind (t.filter (fun e2 => !(lcase e2.1 == lcase k))) u = ciFind t u := by
  unfold ciFind
  rw [find?_filter_of_imp _ _ t (by
    intro x hx
    have hxu : lcase x.1 = lcase u := by simpa using hx
    have : (lcase x.1 == lcase k) = false := by
      rw [hxu]
      simp only [beq_eq_false_iff_ne, ne_eq]
      intro hco
      exact h hco.symm
    simp [this])]

lemma ciFind_ciSet_self {α : Type} (l : List (String × α)) (k k' : String) (v : α)
    (h : lcase k = lcase k') : ciFind (ciSet l k v) k' = some v := by
  have hk : (lcase k == lcase k') = true := by simpa using h
  induction l with
  | nil => exact ciFind_cons_pos (k, v) [] k' hk
  | cons e t ih =>
    by_cases hc : (lcase e.1 == lcase k) = true
    · rw [ciSet_cons_pos e t k v hc]
      exact ciFind_cons_pos (k, v) _ k' hk
    · have hcf : (lcase e.1 == lcase k) = false := by simpa using hc
      have he' : (lcase e.1 == lcase k') = false := by rw [← h]; exact hcf
      rw [ciSet_cons_neg e t k v hcf, ciFind_cons_neg e _ k' he']
      exact ih

lemma ciFind_ciSet_other {α : Type} (l : List (String × α)) (k u : String) (v : α)
    (h : lcase k ≠ lcase u) : ciFind (ciSet l k v) u = ciFind l u := by
  have hku : (lcase k == lcase u) = false := by simpa using h
  induction l with
  | nil =>
    show ciFind [(k, v)] u = ciFind [] u
    rw [ciFind_cons_neg (k, v) [] u hku]
  | cons e t ih =>
    by_cases hc : (lcase e.1 == lcase k) = true
    · have he : lcase e.1 = lcase k := by simpa using hc
      have he' : (lcase e.1 == lcase u) = false := by rw [he]; exact hku
      rw [ciSet_cons_pos e t k v hc, ciFind_cons_neg (k, v) _ u hku,
        ciFind_cons_neg e t u he', ciFind_filter_ne t k u h]
    · have hcf : (lcase e.1 == lcase k) = false := by simpa using hc
      rw [ciSet_cons_neg e t k v hcf]
      by_cases heu : (lcase e.1 == lcase u) = true
      · rw [ciFind_cons_pos e _ u heu, ciFind_cons_pos e t u heu]
      · have heuf : (lcase e.1 == lcase u) = false := by simpa using heu
        rw [ciFind_cons_neg e _ u heuf, ciFind_cons_neg e t u heuf]
        exact ih

lemma reloadGo_cons_skip (flist : MtimeList) (f : FileEntry) (fs : List FileEntry)
    (bl : Store) (rd : List String)
    (hc : (flistFindCI flist f.path == some f.mtime) = true) :
    reloadGo flist (f :: fs) bl rd = reloadGo flist fs bl rd := by
  simp [reloadGo, hc]

lemma reloadGo_cons_read (flist : MtimeList) (f : FileEntry) (fs : List FileEntry)
    (bl : Store) (rd : List String)
    (hc : (flistFindCI flist f.path == some f.mtime) = false) :
    reloadGo flist (f :: fs) bl rd =
      reloadGo flist fs (ciSet bl (userOf f.path) f.lines) (rd ++ [f.path]) := by
  simp [reloadGo, hc]

lemma reloadGo_read (flist : MtimeList) (fs : List FileEntry) :
    ∀ (bl : Store) (rd : List String),
      (reloadGo flist fs bl rd).2 =
        rd ++ (fs.filter
          (fun f => !(flistFindCI flist f.path == some f.mtime))).map
            (fun f => f.path) := by
  induction fs with
  | nil => intro bl rd; simp [reloadGo]
  | cons f fs ih =>
    intro bl rd
    by_cases hc : flistFindCI flist f.path == some f.mtime
    · simp [reloadGo, hc, List.filter_cons, ih]
    · simp [reloadGo, hc, List.filter_cons, ih]

lemma reloadGo_find_absent (flist : MtimeList) (fs : List FileEntry) :
    ∀ (bl : Store) (rd : List String) (u : String),
      (∀ g ∈ fs, lcase (userOf g.path) ≠ lcase u) →
      ciFind (reloadGo flist fs bl rd).1 u = ciFind bl u := by
  induction fs with
  | nil => intro bl rd u _; simp [reloadGo]
  | cons f fs ih =>
    intro bl rd u h
    by_cases hc : flistFindCI flist f.path == some f.mtime
    · simp only [reloadGo, hc, if_true]
      exact ih bl rd u (fun g hg => h g (List.mem_cons_of_mem f hg))
    · simp only [reloadGo, hc, if_false, Bool.false_eq_true]
      rw [ih _ _ u (fun g hg => h g (List.mem_cons_of_mem f hg))]
      exact ciFind_ciSet_other bl (userOf f.path) u f.lines (h f (by simp))

lemma reloadGo_find (flist : MtimeList) (fs : List FileEntry) :
    ∀ (bl : Store) (rd : List String) (f : FileEntry), f ∈ fs →
      (∀ g ∈ fs, g ≠ f → lcase (userOf g.path) ≠ lcase (userOf f.path)) →
      ciFind (reloadGo flist fs bl rd).1 (userOf f.path) =
        if flistFindCI flist f.path == some f.mtime then ciFind bl (userOf f.path)
        else some f.lines := by
  induction fs with
  | nil => intro _ _ _ h; simp at h
  | cons g fs ih =>
    intro bl rd f hmem huniq
    have huniq' : ∀ g2 ∈ fs, g2 ≠ f → lcase (userOf g2.path) ≠ lcase (userOf f.path) :=
      fun g2 hg2 => huniq g2 (List.mem_cons_of_mem g hg2)
    by_cases hgf : g = f
    · subst hgf
      by_cases hin : g ∈ fs
      · by_cases hc : (flistFindCI flist g.path == some g.mtime) = true
        · rw [reloadGo_cons_skip flist g fs bl rd hc]
          exact ih bl rd g hin huniq'
        · have hcf : (flistFindCI flist g.path == some g.mtime) = false := by
            simpa using hc
          rw [reloadGo_cons_read flist g fs bl rd hcf,
            ih _ _ g hin huniq', if_neg (by simp [hcf]), if_neg (by simp [hcf])]
      · have habs : ∀ g2 ∈ fs, lcase (userOf g2.path) ≠ lcase (userOf g.path) := by
          intro g2 hg2
          by_cases hg2g : g2 = g
          · subst hg2g; exact absurd hg2 hin
          · exact huniq' g2 hg2 hg2g
        by_cases hc : (flistFindCI flist g.path == some g.mtime) = true
        · rw [reloadGo_cons_skip flist g fs bl rd hc,
            reloadGo_find_absent flist fs bl rd _ habs, if_pos hc]
        · have hcf : (flistFindCI flist g.path == some g.mtime) = false := by
            simpa using hc
          rw [reloadGo_cons_read flist g fs bl rd hcf,
            reloadGo_find_absent flist fs _ _ _ habs, if_neg (by simp [hcf])]
          exact ciFind_ciSet_self bl (userOf g.path) (userOf g.path) g.lines rfl
    · have hfs : f ∈ fs := by
        rcases List.mem_cons.mp hmem with h1 | h1
        · exact absurd h1.symm hgf
        · exact h1
      have hgu : lcase (userOf g.path) ≠ lcase (userOf f.path) :=
        huniq g (by simp) hgf
      by_cases hc : (flistFindCI flist g.path == some g.mtime) = true
      · rw [reloadGo_cons_skip flist g fs bl rd hc]
        exact ih bl rd f hfs huniq'
      · have hcf : (flistFindCI flist g.path == some g.mtime) = false := by
          simpa using hc
        rw [reloadGo_cons_read flist g fs bl rd hcf, ih _ _ f hfs huniq',
          ciFind_ciSet_other bl (userOf g.path) (userOf f.path) g.lines hgu]

lemma storeFindCI_eq_ciFind (st : Store) (k : String) :
    storeFindCI st k = ciFind st k := rfl

lemma handle_req_step_entry_miss (bl : Store) (u d : String) (entry : List String)
    (hfind : storeFindCI bl u = some entry) (hd : ∀ s ∈ entry, ¬ d = s) :
    handle_req_step (some (.obj [("user", .str u), ("domain", .str d)])) bl =
      .sent 0 := by
  have hany : (entry.any fun s => jEqStr (Json.str d) s) = false := by
    simp only [List.any_eq_false]
    intro s hs
    simpa [jEqStr] using hd s hs
  simp [handle_req_step, is_blocked, jContains, jGetItem, List.find?_cons, hfind, hany]

/-- **C9.** On a reload trigger the policy server re-walks the directory and,
for each file, skips it when its mtime equals the recorded one (it is not
re-read, and — when no other file feeds the same user — that user's entry is
unchanged) and otherwise re-reads it, replacing the user's entire entry; in
particular, after a domain is removed from a (re-read) user's file, a
subsequent query for that domain gets reply `0x00`. -/
theorem read_on_signal_correct (files : List FileEntry) (st : ServerState)
    (hnd : (files.map (fun f => f.path)).Nodup) :
    (∀ f ∈ files, flistFindCI st.fileslist f.path = some f.mtime →
        f.path ∉ (read_on_signal files st).2) ∧
      (∀ f ∈ files, flistFindCI st.fileslist f.path ≠ some f.mtime →
        f.path ∈ (read_on_signal files st).2) ∧
      (∀ f ∈ files,
        (∀ g ∈ files, g ≠ f → lcase (userOf g.path) ≠ lcase (userOf f.path)) →
        storeFindCI (read_on_signal files st).1.blocklist (userOf f.path) =
          if flistFindCI st.fileslist f.path = some f.mtime then
            storeFindCI st.blocklist (userOf f.path)
          else some f.lines) ∧
      (∀ f ∈ files,
        (∀ g ∈ files, g ≠ f → lcase (userOf g.path) ≠ lcase (userOf f.path)) →
        flistFindCI st.fileslist f.path ≠ some f.mtime →
        ∀ d : String, (∀ s ∈ f.lines, d ≠ s) →
          handle_req_step
            (some (.obj [("user", .str (userOf f.path)), ("domain", .str d)]))
            (read_on_signal files st).1.blocklist = .sent 0) := by
  have hread : (read_on_signal files st).2 =
      (files.filter (fun f => !(flistFindCI st.fileslist f.path == some f.mtime))).map
        (fun f => f.path) := by
    show (reloadGo st.fileslist files st.blocklist []).2 = _
    rw [reloadGo_read]
    simp
  refine ⟨?_, ?_, ?_, ?_⟩
  · intro f hf heq hcontra
    rw [hread] at hcontra
    rcases List.mem_map.mp hcontra with ⟨g, hg, hge⟩
    rcases List.mem_filter.mp hg with ⟨hgmem, hgpred⟩
    have hgf : g = f := List.inj_on_of_nodup_map hnd hgmem hf hge
    subst hgf
    rw [Bool.not_eq_true', beq_eq_false_iff_ne] at hgpred
    exact hgpred heq
  · intro f hf hne
    rw [hread]
    exact List.mem_map.mpr ⟨f, List.mem_filter.mpr ⟨hf, by
      rw [Bool.not_eq_true', beq_eq_false_iff_ne]
      exact hne⟩, rfl⟩
  · intro f hf huniq
    have h3 := reloadGo_find st.fileslist files st.blocklist [] f hf huniq
    show ciFind (reloadGo st.fileslist files st.blocklist []).1 (userOf f.path) = _
    rw [h3]
    by_cases heq : flistFindCI st.fileslist f.path = some f.mtime
    · rw [if_pos (by simpa using heq), if_pos heq]
      rfl
    · rw [if_neg (by simpa using heq), if_neg heq]
  · intro f hf huniq hne d hd
    have h3 := reloadGo_find st.fileslist files st.blocklist [] f hf huniq
    rw [if_neg (by simpa using hne)] at h3
    exact handle_req_step_entry_miss _ _ d f.lines h3 hd

/-- Witness for C9 on the spec scenario: `alice`'s file loses
`ads.example.com`, its mtime changes from 1 to 2, the reload re-reads it and a
query for the removed domain now gets `0x00`. -/
theorem read_on_signal_correct_witness :
    "/bl/alice.txt" ∈ (read_on_signal [⟨"/bl/alice.txt", 2, []⟩]
        ⟨[("alice", ["ads.example.com"])], [("/bl/alice.txt", 1)]⟩).2 ∧
      storeFindCI (read_on_signal [⟨"/bl/alice.txt", 2, []⟩]
          ⟨[("alice", ["ads.example.com"])], [("/bl/alice.txt", 1)]⟩).1.blocklist
        (userOf "/bl/alice.txt") = some [] ∧
      handle_req_step
        (some (.obj [("user", .str (userOf "/bl/alice.txt")),
          ("domain", .str "ads.example.com")]))
        (read_on_signal [⟨"/bl/alice.txt", 2, []⟩]
          ⟨[("alice", ["ads.example.com"])], [("/bl/alice.txt", 1)]⟩).1.blocklist =
        .sent 0 := by
  have h := read_on_signal_correct [⟨"/bl/alice.txt", 2, []⟩]
    ⟨[("alice", ["ads.example.com"])], [("/bl/alice.txt", 1)]⟩ (by decide)
  have huniq : ∀ g ∈ [(⟨"/bl/alice.txt", 2, []⟩ : FileEntry)],
      g ≠ ⟨"/bl/alice.txt", 2, []⟩ →
      lcase (userOf g.path) ≠ lcase (userOf (⟨"/bl/alice.txt", 2, []⟩ : FileEntry).path) := by
    intro g hg hne
    rw [List.mem_singleton] at hg
    exact absurd hg hne
  refine ⟨h.2.1 ⟨"/bl/alice.txt", 2, []⟩ (by simp) (by decide), ?_, ?_⟩
  · have h3 := h.2.2.1 ⟨"/bl/alice.txt", 2, []⟩ (by simp) huniq
    rw [if_neg (by decide)] at h3
    exact h3
  · exact h.2.2.2 ⟨"/bl/alice.txt", 2, []⟩ (by simp) huniq (by decide)
      "ads.example.com" (by intro s hs; simp at hs)

/-- **C10.** The global file-watch record is written only by the initial
load: `read_on_signal` records the new mtimes in a local map it discards and
leaves `fileslist` untouched, so every reload compares against the mtime
recorded at initial load, and a file modified once after startup is re-read
by every subsequent reload even if unchanged since the previous one. -/
theorem read_on_signal_fileslist_static (files1 files2 : List FileEntry)
    (st : ServerState) (f : FileEntry) (h1 : f ∈ files1) (h2 : f ∈ files2)
    (hm : flistFindCI st.fileslist f.path ≠ some f.mtime) :
    (read_on_signal files1 st).1.fileslist = st.fileslist ∧
      f.path ∈ (read_on_signal files1 st).2 ∧
      f.path ∈ (read_on_signal files2 (read_on_signal files1 st).1).2 := by
  refine ⟨rfl, ?_, ?_⟩
  · show f.path ∈ (reloadGo st.fileslist files1 st.blocklist []).2
    rw [reloadGo_read]
    simp only [List.nil_append]
    exact List.mem_map.mpr ⟨f, List.mem_filter.mpr ⟨h1, by
      rw [Bool.not_eq_true', beq_eq_false_iff_ne]
      exact hm⟩, rfl⟩
  · show f.path ∈ (reloadGo st.fileslist files2
      (read_on_signal files1 st).1.blocklist []).2
    rw [reloadGo_read]
    simp only [List.nil_append]
    exact List.mem_map.mpr ⟨f, List.mem_filter.mpr ⟨h2, by
      rw [Bool.not_eq_true', beq_eq_false_iff_ne]
      exact hm⟩, rfl⟩

/-- Witness for C10: the file changed at startup+1 reload (mtime 1 → 2) is
re-read by both the first and the second reload. -/
theorem read_on_signal_fileslist_static_witness :
    (read_on_signal [⟨"/bl/bob.txt", 2, ["x.com"]⟩]
        ⟨[("bob", ["y.com"])], [("/bl/bob.txt", 1)]⟩).1.fileslist =
        [("/bl/bob.txt", 1)] ∧
      "/bl/bob.txt" ∈ (read_on_signal [⟨"/bl/bob.txt", 2, ["x.com"]⟩]
        ⟨[("bob", ["y.com"])], [("/bl/bob.txt", 1)]⟩).2 ∧
      "/bl/bob.txt" ∈ (read_on_signal [⟨"/bl/bob.txt", 2, ["x.com"]⟩]
        (read_on_signal [⟨"/bl/bob.txt", 2, ["x.com"]⟩]
          ⟨[("bob", ["y.com"])], [("/bl/bob.txt", 1)]⟩).1).2 :=
  read_on_signal_fileslist_static [⟨"/bl/bob.txt", 2, ["x.com"]⟩]
    [⟨"/bl/bob.txt", 2, ["x.com"]⟩] ⟨[("bob", ["y.com"])], [("/bl/bob.txt", 1)]⟩
    ⟨"/bl/bob.txt", 2, ["x.com"]⟩ (by simp) (by simp) (by decide)

/-! ### The DOH handler (`httpproxy.py`)

`doh1handler` / `DOHApplication.resolve` / `DOHApplication.on_answer` are
modelled over the request fields they read.  `request.headers.getall` is
called with the misspelled name `X-Forwaded-For` at three places; it raises
`KeyError` when the header is absent, and an exception escaping the handler
is surfaced by aiohttp as HTTP 500 — modelled as `Except.error`.
`constants.py` and `server_protocol.py` are not among the provided sources:
the two constants below are modelled from the spec, and `DNSClient.query` is
the spec's `Resolver.query → DNSMessage | none` passed in as a parameter. -/

/-- Modelled from the spec: `constants.DOH_MEDIA_TYPE` (§6,
`Content-Type: application/dns-message`); `constants.py` is not in the
provided sources. -/
def DOH_MEDIA_TYPE : String := "application/dns-message"

/-- Modelled from the spec: `constants.DOH_DNS_PARAM` (§6, `?dns=<base64url>`);
`constants.py` is not in the provided sources. -/
def DOH_DNS_PARAM : String := "dns"

/-- A Python exception escaping the handler (aiohttp answers HTTP 500). -/
inductive PyErr where
  | keyError
  | indexError
  | attributeError
  | valueError
deriving DecidableEq

/-- An HTTP response body: empty (HEAD), diagnostic text, or a DNS message
(`dnsr.to_wire()` is injective, so the message stands for its wire form). -/
inductive Body where
  | empty
  | text (s : String)
  | dns (m : DnsMessage)
deriving DecidableEq

/-- An `aiohttp.web.Response` as built by the handler. -/
structure HttpResponse where
  status : Nat
  body : Body
  contentType : Option String
  headers : List (String × String)
deriving DecidableEq

/-- `dns.message.make_response(dnsq)`: a fresh response reusing the query's
id and question; the other tracked fields start empty/disabled. -/
def makeResponse (dnsq : DnsMessage) : DnsMessage :=
  { id := dnsq.id, question := dnsq.question, answer := [], options := [],
    edns := -1, ednsflags := 0 }

/-- `min(r.ttl for r in dnsr.answer)`; only evaluated on a non-empty answer
section. -/
def minTtl : List Rrset → Nat
  | [] => 0
  | r :: t => t.foldl (fun m x => min m x.ttl) r.ttl

/-- `DOHApplication.on_answer`.  `hasXFF` records whether the request carries
the (misspelled) `X-Forwaded-For` header: the log line's
`request.headers.getall` raises `KeyError` without it, after the headers are
computed but before the response is returned. -/
def on_answer (hasXFF : Bool) (method : String)
    (dnsr? dnsq? : Option DnsMessage) : Except PyErr HttpResponse := do
  let (dnsr, headers) ←
    (match dnsr? with
    | none =>
      match dnsq? with
      | none => throw PyErr.attributeError
      | some dnsq =>
        match dnsq.question with
        | [] => throw PyErr.indexError
        | q :: _ =>
          pure ({ makeResponse dnsq with
              answer := [⟨q.name, 300, "IN", "A", "0.0.0.0"⟩] },
            [("cache-control", "max-age=" ++ toString 300)])
    | some dnsr =>
      if dnsr.answer.length ≠ 0 then
        pure (dnsr, [("cache-control", "max-age=" ++ toString (minTtl dnsr.answer))])
      else pure (dnsr, []) :
      Except PyErr (DnsMessage × List (String × String)))
  if hasXFF then
    pure (⟨200, if method == "HEAD" then Body.empty else Body.dns dnsr,
      some DOH_MEDIA_TYPE, headers⟩ : HttpResponse)
  else throw PyErr.keyError

/-- The `filtered` flag from `resolve`'s `try` block: true only when an
`Authorization` header is present and truthy and the policy socket round-trip
returned exactly `b'\x01'`; any exception in the block (`.error`: undecodable
credential, no question to take a name from, connect failure, timeout) or any
other reply leaves it false. -/
def policyFiltered (authHeader : Option String)
    (authPolicy : Except Unit (List Nat)) : Bool :=
  match authHeader with
  | some s =>
    if !(s == "") then
      match authPolicy with
      | .error _ => false
      | .ok bs => !bs.isEmpty && bs == [1]
    else false
  | none => false

/-- The outcome of `DOHApplication.resolve`: the response (or escaped
exception) and whether `DNSClient.query` was invoked. -/
structure ResolveResult where
  response : Except PyErr HttpResponse
  upstreamQueried : Bool

/-- `DOHApplication.resolve`: take the client IP from the `X-Forwaded-For`
header (`KeyError` when absent), run the auth/policy block, then skip the
upstream call only when filtered; `resolverAnswer` is `DNSClient.query`'s
result (`server_protocol.py` is outside the provided sources; per the spec it
returns a message or `none` on timeout/failure). -/
def resolve (hasXFF : Bool) (method : String) (authHeader : Option String)
    (authPolicy : Except Unit (List Nat)) (resolverAnswer : Option DnsMessage)
    (dnsq : DnsMessage) : ResolveResult :=
  if !hasXFF then ⟨.error PyErr.keyError, false⟩
  else if policyFiltered authHeader authPolicy then
    ⟨on_answer hasXFF method none (some dnsq), false⟩
  else
    match resolverAnswer with
    | none => ⟨on_answer hasXFF method none (some dnsq), true⟩
    | some dnsr => ⟨on_answer hasXFF method (some dnsr) none, true⟩

/-- What `utils.extract_ct_body` can do: succeed, raise a
`DOHParamsException` (caught by `doh1handler` → 400), or let an exception
escape uncaught. -/
inductive ExtractResult where
  | ok (ct : String) (body : List Nat)
  | paramsError (msg : String)
  | raised (e : PyErr)
deriving DecidableEq

/-- `utils.extract_ct_body`: pull the `dns` query parameter and base64url
decode it.  Its `except binascii.Error` catches only `binascii.Error` and
re-raises it as `DOHParamsException("Invalid Body Parameter")`; the plain
`ValueError` that `urlsafe_b64decode` raises on a non-ASCII parameter (as
`parse_qs` can deliver, e.g. `?dns=%C3%A9`) is not caught and escapes the
handler. -/
def extract_ct_body (params : List (String × List String)) : ExtractResult :=
  match params.find? (fun e => e.1 == DOH_DNS_PARAM) with
  | some (_, v :: _) =>
    (match doh_b64_decode v.data with
    | .error B64Err.binasciiError => .paramsError "Invalid Body Parameter"
    | .error B64Err.valueError => .raised PyErr.valueError
    | .ok body =>
      if body.isEmpty then .paramsError "Missing Body" else .ok DOH_MEDIA_TYPE body)
  | some (_, []) => .paramsError "Missing Body Parameter"
  | none => .paramsError "Missing Body Parameter"

/-- The parts of the aiohttp request that `doh1handler`/`resolve` read. -/
structure HttpRequest where
  method : String
  params : List (String × List String)
  postBody : List Nat
  postCt : Option String
  hasXFF : Bool
  authHeader : Option String

/-- The tail of `doh1handler` once content type and body are known:
content-type check (415), wire decode — `fromWire` models the external
`dns.message.from_wire`, `none` when it raises, surfaced as a 400 with the
non-debug `DOHDNSException` message — then the log line (`KeyError` without
the `X-Forwaded-For` header) and the `resolve` call. -/
def doh1handlerBody (fromWire : List Nat → Option DnsMessage) (req : HttpRequest)
    (authPolicy : Except Unit (List Nat)) (resolverAnswer : Option DnsMessage)
    (ct : Option String) (body : List Nat) : ResolveResult :=
  if ct ≠ some DOH_MEDIA_TYPE then
    ⟨.ok ⟨415, .text "Unsupported content type", none, []⟩, false⟩
  else
    match fromWire body with
    | none => ⟨.ok ⟨400, .text "Malformed DNS query", none, []⟩, false⟩
    | some dnsq =>
      if !req.hasXFF then ⟨.error PyErr.keyError, false⟩
      else resolve req.hasXFF req.method req.authHeader authPolicy resolverAnswer dnsq

/-- `doh1handler`: method dispatch — GET/HEAD take the body from the `dns`
parameter (400 on a parameter error), POST takes the raw body and its
`Content-Type` header, anything else is 501. -/
def doh1handler (fromWire : List Nat → Option DnsMessage) (req : HttpRequest)
    (authPolicy : Except Unit (List Nat)) (resolverAnswer : Option DnsMessage) :
    ResolveResult :=
  if req.method == "GET" || req.method == "HEAD" then
    match extract_ct_body req.params with
    | .paramsError msg => ⟨.ok ⟨400, .text msg, none, []⟩, false⟩
    | .raised e => ⟨.error e, false⟩
    | .ok ct body =>
      doh1handlerBody fromWire req authPolicy resolverAnswer (some ct) body
  else if req.method == "POST" then
    doh1handlerBody fromWire req authPolicy resolverAnswer req.postCt req.postBody
  else ⟨.ok ⟨501, .text "Not Implemented", none, []⟩, false⟩

lemma on_answer_some_ok (method : String) (dnsr : DnsMessage)
    (dnsq? : Option DnsMessage) :
    ∃ r, on_answer true method (some dnsr) dnsq? = .ok r ∧ r.status = 200 ∧
      (method ≠ "HEAD" → ∃ m, r.body = Body.dns m) := by
  by_cases h : dnsr.answer.length ≠ 0
  · refine ⟨⟨200, if method == "HEAD" then Body.empty else Body.dns dnsr,
      some DOH_MEDIA_TYPE,
      [("cache-control", "max-age=" ++ toString (minTtl dnsr.answer))]⟩,
      ?_, rfl, ?_⟩
    · simp only [on_answer]
      rw [if_pos h]
      rfl
    · intro hm
      have hmb : (method == "HEAD") = false := beq_eq_false_iff_ne.mpr hm
      refine ⟨dnsr, ?_⟩
      show (if (method == "HEAD") = true then Body.empty else Body.dns dnsr) = _
      rw [if_neg (by simp [hmb])]
  · refine ⟨⟨200, if method == "HEAD" then Body.empty else Body.dns dnsr,
      some DOH_MEDIA_TYPE, []⟩, ?_, rfl, ?_⟩
    · simp only [on_answer]
      rw [if_neg h]
      rfl
    · intro hm
      have hmb : (method == "HEAD") = false := beq_eq_false_iff_ne.mpr hm
      refine ⟨dnsr, ?_⟩
      show (if (method == "HEAD") = true then Body.empty else Body.dns dnsr) = _
      rw [if_neg (by simp [hmb])]

lemma on_answer_none_ok (method : String) (dnsq : DnsMessage)
    (hq : dnsq.question ≠ []) :
    ∃ r, on_answer true method none (some dnsq) = .ok r ∧ r.status = 200 ∧
      (method ≠ "HEAD" → ∃ m, r.body = Body.dns m) := by
  match hq2 : dnsq.question with
  | q :: qs =>
    refine ⟨⟨200, if method == "HEAD" then Body.empty else
      Body.dns { makeResponse dnsq with
        answer := [⟨q.name, 300, "IN", "A", "0.0.0.0"⟩] },
      some DOH_MEDIA_TYPE, [("cache-control", "max-age=" ++ toString 300)]⟩,
      ?_, rfl, ?_⟩
    · simp only [on_answer, hq2]
      rfl
    · intro hm
      have hmb : (method == "HEAD") = false := beq_eq_false_iff_ne.mpr hm
      refine ⟨{ makeResponse dnsq with
        answer := [⟨q.name, 300, "IN", "A", "0.0.0.0"⟩] }, ?_⟩
      show (if (method == "HEAD") = true then Body.empty else _) = _
      rw [if_neg (by simp [hmb])]
  | [] => exact absurd hq2 hq

lemma resolve_response_cases (method : String) (authHeader : Option String)
    (authPolicy : Except Unit (List Nat)) (resolverAnswer : Option DnsMessage)
    (dnsq : DnsMessage) :
    (resolve true method authHeader authPolicy resolverAnswer dnsq).response =
        on_answer true method none (some dnsq) ∨
      ∃ dnsr, resolverAnswer = some dnsr ∧
        (resolve true method authHeader authPolicy resolverAnswer dnsq).response =
          on_answer true method (some dnsr) none := by
  cases hfil : policyFiltered authHeader authPolicy with
  | true => left; simp [resolve, hfil]
  | false =>
    cases resolverAnswer with
    | none => left; simp [resolve, hfil]
    | some dnsr => right; exact ⟨dnsr, rfl, by simp [resolve, hfil]⟩

lemma resolve_200_aux (method : String) (authHeader : Option String)
    (authPolicy : Except Unit (List Nat)) (resolverAnswer : Option DnsMessage)
    (dnsq : DnsMessage) (hq : dnsq.question ≠ []) :
    ∃ r, (resolve true method authHeader authPolicy resolverAnswer dnsq).response =
        .ok r ∧ r.status = 200 ∧ (method ≠ "HEAD" → ∃ m, r.body = Body.dns m) := by
  rcases resolve_response_cases method authHeader authPolicy resolverAnswer dnsq with
    h | ⟨dnsr, _, h⟩
  · rw [h]; exact on_answer_none_ok method dnsq hq
  · rw [h]; exact on_answer_some_ok method dnsr none

lemma doh1handlerBody_ok (fromWire : List Nat → Option DnsMessage)
    (req : HttpRequest) (authPolicy : Except Unit (List Nat))
    (resolverAnswer : Option DnsMessage) (ct : Option String) (body : List Nat)
    (hxff : req.hasXFF = true)
    (hfw : ∀ bs m, fromWire bs = some m → m.question ≠ []) :
    ∃ r, (doh1handlerBody fromWire req authPolicy resolverAnswer ct body).response =
        .ok r ∧ (r.status = 200 ∨ r.status = 400 ∨ r.status = 415 ∨ r.status = 501) := by
  unfold doh1handlerBody
  by_cases hct : ct ≠ some DOH_MEDIA_TYPE
  · rw [if_pos hct]; exact ⟨_, rfl, by simp⟩
  · rw [if_neg hct]
    cases hw : fromWire body with
    | none => exact ⟨_, rfl, by simp⟩
    | some dnsq =>
      rw [hxff]
      show ∃ r, (resolve true req.method req.authHeader authPolicy resolverAnswer
        dnsq).response = .ok r ∧ _
      obtain ⟨r, hr, hst, _⟩ := resolve_200_aux req.method req.authHeader authPolicy
        resolverAnswer dnsq (hfw body dnsq hw)
      exact ⟨r, hr, Or.inl hst⟩

/-- A syntactically valid DNS query whose question section is empty
(`qdcount = 0` parses fine). -/
def emptyQuestionQuery : DnsMessage := ⟨7, [], [], [], -1, 0⟩

/-- Counterexample to C1 as stated: a request whose DNS bytes parse
successfully (to a question-less query) and whose upstream resolution fails
does not get a status-200 synthesized answer — `on_answer` raises
`IndexError` at `dnsq.question[0]`, which aiohttp surfaces as HTTP 500. -/
theorem resolve_500_counterexample :
    resolve true "GET" none (Except.error ()) none emptyQuestionQuery =
      ⟨Except.error PyErr.indexError, true⟩ := rfl

/-- **C1 (amended).** Provided the request carries the `X-Forwaded-For`
header and the parsed query has at least one question, the handler path from
`resolve` through `on_answer` always returns status 200 carrying a (possibly
synthesized) DNS answer — empty body only for HEAD — for every policy and
resolver outcome; and `doh1handler` never yields a 5xx — its non-200 statuses
are only 400/415/501, for malformed client input — provided additionally that
parameter extraction does not itself raise.  Otherwise the handler raises and
aiohttp answers 500: without the header, when a question-less query needs a
synthesized answer, or when a GET's `dns` parameter contains a non-ASCII
character (percent-decoded by `parse_qs`), whose `ValueError` from
`urlsafe_b64decode` is not caught by `extract_ct_body`'s
`except binascii.Error` — shown concretely in the last conjunct. -/
theorem resolve_status_200 :
    (∀ (method : String) (authHeader : Option String)
      (authPolicy : Except Unit (List Nat)) (resolverAnswer : Option DnsMessage)
      (dnsq : DnsMessage), dnsq.question ≠ [] →
      ∃ r, (resolve true method authHeader authPolicy resolverAnswer dnsq).response =
          .ok r ∧ r.status = 200 ∧ (method ≠ "HEAD" → ∃ m, r.body = Body.dns m)) ∧
      (∀ (fromWire : List Nat → Option DnsMessage) (req : HttpRequest)
        (authPolicy : Except Unit (List Nat)) (resolverAnswer : Option DnsMessage),
        req.hasXFF = true →
        (∀ bs m, fromWire bs = some m → m.question ≠ []) →
        (∀ e, extract_ct_body req.params ≠ ExtractResult.raised e) →
        ∃ r, (doh1handler fromWire req authPolicy resolverAnswer).response = .ok r ∧
          (r.status = 200 ∨ r.status = 400 ∨ r.status = 415 ∨ r.status = 501)) ∧
      doh1handler (fun _ => none) ⟨"GET", [("dns", ["é"])], [], none, true, none⟩
          (Except.error ()) none =
        ⟨Except.error PyErr.valueError, false⟩ := by
  refine ⟨resolve_200_aux, ?_, rfl⟩
  intro fromWire req authPolicy resolverAnswer hxff hfw hnr
  unfold doh1handler
  by_cases hget : (req.method == "GET" || req.method == "HEAD") = true
  · rw [if_pos hget]
    cases hex : extract_ct_body req.params with
    | paramsError msg => exact ⟨_, rfl, by simp⟩
    | raised e => exact absurd hex (hnr e)
    | ok ct body =>
      show ∃ r, (doh1handlerBody fromWire req authPolicy resolverAnswer
          (some ct) body).response = .ok r ∧
        (r.status = 200 ∨ r.status = 400 ∨ r.status = 415 ∨ r.status = 501)
      exact doh1handlerBody_ok fromWire req authPolicy resolverAnswer
        (some ct) body hxff hfw
  · rw [if_neg hget]
    by_cases hpost : (req.method == "POST") = true
    · rw [if_pos hpost]
      exact doh1handlerBody_ok fromWire req authPolicy resolverAnswer
        req.postCt req.postBody hxff hfw
    · rw [if_neg hpost]
      exact ⟨_, rfl, by simp⟩

/-- Witness for C1: a GET with failing policy IPC and resolver timeout still
gets a 200 with a DNS body, and a POST through `doh1handler` gets a
non-5xx; instantiated at a one-question query. -/
theorem resolve_status_200_witness :
    (∃ r, (resolve true "GET" (some "Basic eDp5") (Except.error ()) none
        ⟨3, [⟨"example.com."⟩], [], [], -1, 0⟩).response = .ok r ∧
        r.status = 200 ∧ ("GET" ≠ "HEAD" → ∃ m, r.body = Body.dns m)) ∧
      (∃ r, (doh1handler (fun _ => some ⟨3, [⟨"example.com."⟩], [], [], -1, 0⟩)
          ⟨"POST", [], [1, 2, 3], some DOH_MEDIA_TYPE, true, none⟩
          (Except.error ()) none).response = .ok r ∧
        (r.status = 200 ∨ r.status = 400 ∨ r.status = 415 ∨ r.status = 501)) :=
  ⟨resolve_status_200.1 "GET" (some "Basic eDp5") (Except.error ()) none
      ⟨3, [⟨"example.com."⟩], [], [], -1, 0⟩ (by simp),
    resolve_status_200.2.1 (fun _ => some ⟨3, [⟨"example.com."⟩], [], [], -1, 0⟩)
      ⟨"POST", [], [1, 2, 3], some DOH_MEDIA_TYPE, true, none⟩
      (Except.error ()) none rfl
      (by intro bs m h; cases h; simp)
      (by intro e h; simp [extract_ct_body, DOH_DNS_PARAM] at h)⟩

/-- **C3.** Auth/policy failures fail open: with an Authorization header
present, any exception inside the try block (undecodable credential, missing
question name, connect failure, timeout — `.error`) or any reply byte other
than `0x01` leaves the request treated as not blocked: `resolve` behaves
exactly as if the request were unauthenticated, the upstream resolver is
still queried, and the failure itself never escapes to the client. -/
theorem resolve_fails_open (method : String) (s : String)
    (authPolicy : Except Unit (List Nat)) (resolverAnswer : Option DnsMessage)
    (dnsq : DnsMessage)
    (hfail : authPolicy = Except.error () ∨
      ∃ bs, authPolicy = Except.ok bs ∧ bs ≠ [1]) :
    resolve true method (some s) authPolicy resolverAnswer dnsq =
        resolve true method none authPolicy resolverAnswer dnsq ∧
      (resolve true method (some s) authPolicy resolverAnswer dnsq).upstreamQueried =
        true := by
  have hfil : policyFiltered (some s) authPolicy = false := by
    rcases hfail with rfl | ⟨bs, rfl, hbs⟩
    · by_cases hs : (s == "") = true
      · simp [policyFiltered, hs]
      · simp [policyFiltered, hs]
    · by_cases hs : (s == "") = true
      · simp [policyFiltered, hs]
      · have hb : (bs == [1]) = false := beq_eq_false_iff_ne.mpr hbs
        simp [policyFiltered, hs, hb]
  have hfil2 : policyFiltered none authPolicy = false := rfl
  constructor
  · simp [resolve, hfil, hfil2]
  · cases resolverAnswer <;> simp [resolve, hfil]

/-- Witness for C3: a reply byte `0x00` (not blocked) behaves exactly like no
Authorization header and still queries the resolver. -/
theorem resolve_fails_open_witness :
    resolve true "GET" (some "Basic eDp5") (Except.ok [0]) none
        ⟨3, [⟨"example.com."⟩], [], [], -1, 0⟩ =
      resolve true "GET" none (Except.ok [0]) none
        ⟨3, [⟨"example.com."⟩], [], [], -1, 0⟩ ∧
      (resolve true "GET" (some "Basic eDp5") (Except.ok [0]) none
        ⟨3, [⟨"example.com."⟩], [], [], -1, 0⟩).upstreamQueried = true :=
  resolve_fails_open "GET" "Basic eDp5" (Except.ok [0]) none
    ⟨3, [⟨"example.com."⟩], [], [], -1, 0⟩ (Or.inr ⟨[0], rfl, by decide⟩)

/-- Counterexample to C4 as stated ("the HTTP status is 200 in every case"):
`on_answer`'s log line calls `request.headers.getall('X-Forwaded-For')`, so
without that header even a genuine resolver answer with a non-empty answer
section produces an unhandled `KeyError` (HTTP 500), not a 200. -/
theorem on_answer_counterexample :
    on_answer false "GET"
        (some ⟨5, [⟨"example.com."⟩], [⟨"example.com.", 60, "IN", "A", "1.2.3.4"⟩],
          [], -1, 0⟩) none =
      Except.error PyErr.keyError := rfl

/-- **C4 (amended).** With the `X-Forwaded-For` header present (and, for the
synthesized case, a non-empty question), `on_answer` returns HTTP 200 and:
no resolver answer ⇒ the body is a synthesized message reusing the query's id
and question with exactly one A record `0.0.0.0` of TTL 300 and header
`cache-control: max-age=300`; a resolver answer with non-empty answer section
⇒ `cache-control: max-age=m`, `m` the minimum TTL over the answer records
(TTLs 10 and 300 give `max-age=10`); an empty answer section ⇒ no
cache-control header.  Without the header `on_answer` raises instead. -/
theorem on_answer_cases (method : String) :
    (∀ (dnsq : DnsMessage) (q : Question) (qs : List Question),
      dnsq.question = q :: qs →
      on_answer true method none (some dnsq) =
        .ok ⟨200,
          if method == "HEAD" then Body.empty else
            Body.dns { makeResponse dnsq with
              answer := [⟨q.name, 300, "IN", "A", "0.0.0.0"⟩] },
          some DOH_MEDIA_TYPE, [("cache-control", "max-age=" ++ toString 300)]⟩) ∧
      (∀ dnsr : DnsMessage, dnsr.answer ≠ [] →
        on_answer true method (some dnsr) none =
          .ok ⟨200, if method == "HEAD" then Body.empty else Body.dns dnsr,
            some DOH_MEDIA_TYPE,
            [("cache-control", "max-age=" ++ toString (minTtl dnsr.answer))]⟩) ∧
      (∀ dnsr : DnsMessage, dnsr.answer = [] →
        on_answer true method (some dnsr) none =
          .ok ⟨200, if method == "HEAD" then Body.empty else Body.dns dnsr,
            some DOH_MEDIA_TYPE, []⟩) ∧
      minTtl [⟨"a.", 10, "IN", "A", "1.1.1.1"⟩, ⟨"b.", 300, "IN", "A", "2.2.2.2"⟩] =
        10 := by
  refine ⟨?_, ?_, ?_, rfl⟩
  · intro dnsq q qs hq
    simp only [on_answer, hq]
    rfl
  · intro dnsr h
    have hl : dnsr.answer.length ≠ 0 := by
      intro hc
      exact h (List.length_eq_zero.mp hc)
    simp only [on_answer]
    rw [if_pos hl]
    rfl
  · intro dnsr h
    have hl : ¬(dnsr.answer.length ≠ 0) := by simp [h]
    simp only [on_answer]
    rw [if_neg hl]
    rfl

/-- Witness for C4 at concrete messages, including the TTL-{10, 300} example. -/
theorem on_answer_cases_witness :
    on_answer true "GET" none (some ⟨9, [⟨"q.example."⟩], [], [], -1, 0⟩) =
        .ok ⟨200,
          Body.dns { makeResponse ⟨9, [⟨"q.example."⟩], [], [], -1, 0⟩ with
            answer := [⟨"q.example.", 300, "IN", "A", "0.0.0.0"⟩] },
          some DOH_MEDIA_TYPE, [("cache-control", "max-age=" ++ toString 300)]⟩ ∧
      on_answer true "GET"
        (some ⟨9, [⟨"q.example."⟩],
          [⟨"a.", 10, "IN", "A", "1.1.1.1"⟩, ⟨"b.", 300, "IN", "A", "2.2.2.2"⟩],
          [], -1, 0⟩) none =
        .ok ⟨200,
          Body.dns ⟨9, [⟨"q.example."⟩],
            [⟨"a.", 10, "IN", "A", "1.1.1.1"⟩, ⟨"b.", 300, "IN", "A", "2.2.2.2"⟩],
            [], -1, 0⟩,
          some DOH_MEDIA_TYPE, [("cache-control", "max-age=" ++ toString 10)]⟩ ∧
      on_answer true "GET" (some ⟨9, [⟨"q.example."⟩], [], [], -1, 0⟩) none =
        .ok ⟨200, Body.dns ⟨9, [⟨"q.example."⟩], [], [], -1, 0⟩,
          some DOH_MEDIA_TYPE, []⟩ := by
  refine ⟨?_, ?_, ?_⟩
  · exact (on_answer_cases "GET").1 ⟨9, [⟨"q.example."⟩], [], [], -1, 0⟩
      ⟨"q.example."⟩ [] rfl
  · have h := (on_answer_cases "GET").2.1 ⟨9, [⟨"q.example."⟩],
      [⟨"a.", 10, "IN", "A", "1.1.1.1"⟩, ⟨"b.", 300, "IN", "A", "2.2.2.2"⟩],
      [], -1, 0⟩ (by simp)
    simpa using h
  · exact (on_answer_cases "GET").2.2.1 ⟨9, [⟨"q.example."⟩], [], [], -1, 0⟩ rfl

end Dohproxy
